import Mathlib

/-!
Verification of the OKX perpetual-swap trading adapter (`trader/okx_trader.go`).

The Go source is shallowly embedded: strings become `List Char`, Go
`float64` values coming from or going to the exchange become `ℚ` (none of
the verified claims depends on binary floating-point rounding), fallible
calls return `Except Err`, and the effectful trader methods are pure
functions parameterised by an `Exchange` oracle (the authenticated REST
client, an external collaborator) that also thread an explicit state
(`St`) holding the precision cache and a chronological trace of the
exchange calls that were issued.
-/

/-- Go strings are modelled as lists of characters. -/
abbrev Str := List Char

/-- Errors returned by the SDK / produced by the adapter are their message strings. -/
abbrev Err := Str

/-- Boolean prefix test on character lists (Go `strings.HasPrefix`). -/
def pfx : Str → Str → Bool
  | [], _ => true
  | _ :: _, [] => false
  | a :: as, b :: bs => decide (a = b) && pfx as bs

/-- Boolean suffix test on character lists (Go `strings.HasSuffix`). -/
def sfx (l s : Str) : Bool := pfx l.reverse s.reverse

/-- Boolean substring test (Go `strings.Contains`): does `old` occur inside `s`? -/
def containsSub (old : Str) : Str → Bool
  | [] => pfx old []
  | s@(_ :: rest) => pfx old s || containsSub old rest

/-- Replace the first occurrence of `old` in a string (Go `strings.Replace(s, old, new, 1)`
for a non-empty `old`). -/
def replaceFirst (old new : Str) : Str → Str
  | [] => []
  | c :: rest =>
    if pfx old (c :: rest) then new ++ (c :: rest).drop old.length
    else c :: replaceFirst old new rest

/-- The canonical quote-asset suffix "USDT". -/
def strUSDT : Str := ['U', 'S', 'D', 'T']

/-- The exchange-native instrument suffix "-USDT-SWAP". -/
def strSwapSuffix : Str := ['-', 'U', 'S', 'D', 'T', '-', 'S', 'W', 'A', 'P']

/-- Embedding of `okxSymbol`: translates "BTCUSDT" to "BTC-USDT-SWAP". -/
def okxSymbol (symbol : Str) : Str :=
  if sfx strUSDT symbol then replaceFirst strUSDT strSwapSuffix symbol
  else symbol ++ strSwapSuffix

/-- Embedding of `standardSymbol`: translates "BTC-USDT-SWAP" back to "BTCUSDT". -/
def standardSymbol (instID : Str) : Str :=
  if sfx strSwapSuffix instID then replaceFirst strSwapSuffix strUSDT instID
  else instID

/-- Decimal digit character for `n` (callers always pass a value below 10). -/
def digCh (n : Nat) : Char :=
  if n = 0 then '0' else if n = 1 then '1' else if n = 2 then '2' else if n = 3 then '3'
  else if n = 4 then '4' else if n = 5 then '5' else if n = 6 then '6' else if n = 7 then '7'
  else if n = 8 then '8' else '9'

/-- Decimal rendering of a positive natural, most significant digit first
(the recursion is fuelled; the fuel argument always suffices). -/
def natDigits : Nat → Nat → Str
  | 0, _ => []
  | _ + 1, 0 => []
  | fuel + 1, n + 1 => natDigits fuel ((n + 1) / 10) ++ [digCh ((n + 1) % 10)]

/-- Decimal rendering of a natural number (Go `fmt.Sprintf` with `%d`). -/
def natToStr (n : Nat) : Str :=
  if n = 0 then ['0'] else natDigits (n + 1) n

/-- Decimal rendering of an integer (Go `fmt.Sprintf("%d", ...)`). -/
def intToStr (n : Int) : Str :=
  if n < 0 then '-' :: natToStr n.natAbs else natToStr n.natAbs

/-- Rounding to the nearest integer (computable on `ℚ`). -/
def roundQ (v : ℚ) : Int := Rat.floor (v + 1 / 2)

/-- Embedding of Go `fmt.Sprintf("%.<p>f", v)`: fixed-point rendering of `v`
with exactly `p` digits after the decimal point (no point at all when
`p = 0`), rounding to nearest. -/
def formatFixed (p : Nat) (v : ℚ) : Str :=
  (if roundQ (v * (10 : ℚ) ^ p) < 0 then ['-'] else []) ++
    natToStr ((roundQ (v * (10 : ℚ) ^ p)).natAbs / 10 ^ p) ++
    (if p = 0 then []
     else '.' :: (List.range p).map
       (fun i => digCh ((roundQ (v * (10 : ℚ) ^ p)).natAbs % 10 ^ p / 10 ^ (p - 1 - i) % 10)))

/-- Number of characters after the last '.' of a rendered number. -/
def fracLen (s : Str) : Nat := ((s.reverse).takeWhile (fun c => !(c == '.'))).length

/-- Numeric value of a digit string, most significant digit first. -/
def digitsVal (l : Str) : Nat := l.foldl (fun acc c => acc * 10 + (c.toNat - 48)) 0

/-- Parser for the decimal-number syntax accepted by Go `strconv.ParseFloat`
(optional sign, integer digits, optional fraction, optional exponent);
returns `none` exactly when the string is rejected. The value is exact in
`ℚ`; the "inf"/"NaN"/hexadecimal-float forms, which never arise for
exchange-reported numbers, are outside the model. -/
def parseRat (s : Str) : Option ℚ :=
  let sgnBody : ℚ × Str :=
    match s with
    | '+' :: r => (1, r)
    | '-' :: r => (-1, r)
    | _ => (1, s)
  let ip := sgnBody.2.takeWhile Char.isDigit
  let r₁ := sgnBody.2.dropWhile Char.isDigit
  let fpRest : Str × Str :=
    match r₁ with
    | '.' :: r => (r.takeWhile Char.isDigit, r.dropWhile Char.isDigit)
    | _ => ([], r₁)
  if ip = [] ∧ fpRest.1 = [] then none
  else
    let mant : ℚ :=
      sgnBody.1 * ((digitsVal ip : ℚ) + (digitsVal fpRest.1 : ℚ) / (10 : ℚ) ^ fpRest.1.length)
    match fpRest.2 with
    | [] => some mant
    | e :: r₃ =>
      if e = 'e' ∨ e = 'E' then
        let esgnBody : Int × Str :=
          match r₃ with
          | '+' :: r => (1, r)
          | '-' :: r => (-1, r)
          | _ => (1, r₃)
        let ed := esgnBody.2.takeWhile Char.isDigit
        if ed = [] ∨ ¬ esgnBody.2.dropWhile Char.isDigit = [] then none
        else some (mant * (10 : ℚ) ^ (esgnBody.1 * (digitsVal ed : Int)))
      else none

/-- Embedding of `parseFloat`: `strconv.ParseFloat` with the error discarded,
so any rejected string yields the zero value. -/
def parseFloat (s : Str) : ℚ := (parseRat s).getD 0

/-- ASCII lower-casing of a string (Go `strings.ToLower` restricted to the
ASCII range that position-side strings use). -/
def toLower (s : Str) : Str := s.map Char.toLower

/-- Relevant fields of an SDK `public.Instrument` record. -/
structure Instrument where
  instID : Str
  lotSz : Str
  tickSz : Str

deriving DecidableEq

/-- Relevant fields of an SDK `account.Position` record (all numeric fields
arrive as strings). -/
structure RawPos where
  instID : Str
  posSide : Str
  pos : Str
  avgPx : Str
  markPx : Str
  upl : Str
  lever : Str
  liqPx : Str

deriving DecidableEq

/-- Relevant fields of an SDK `account.Account` record. -/
structure AccountData where
  totalEq : Str
  upl : Str
  availEq : Str

deriving DecidableEq

/-- One entry of an SDK `trade.PlaceOrderResponse`. -/
structure OrderData where
  sCode : Str
  sMsg : Str
  ordID : Str

deriving DecidableEq

/-- One entry of an SDK algo-order list response. -/
structure AlgoEntry where
  algoID : Str

deriving DecidableEq

/-- One entry of an SDK `trade.PlaceAlgoOrderResponse`. -/
structure AlgoRespData where
  sCode : Str
  sMsg : Str

deriving DecidableEq

/-- The `trade.PlaceOrderRequest` fields the adapter fills in. -/
structure OrderReq where
  instID : Str
  tdMode : Str
  side : Str
  ordType : Str
  sz : Str
  posSide : Str

deriving DecidableEq

/-- The `account.SetLeverageRequest` fields the adapter fills in. -/
structure LevReq where
  instID : Str
  lever : Str
  mgnMode : Str

deriving DecidableEq

/-- The `account.GetPositionsRequest` fields the adapter fills in (Go zero
value "" marks an unset field). -/
structure PosReq where
  instType : Str
  instID : Str

deriving DecidableEq

/-- The `trade.GetAlgoOrderListRequest` fields the adapter fills in. -/
structure AlgoListReq where
  instType : Str
  instID : Str
  ordType : Str

deriving DecidableEq

/-- The `trade.CancelAlgoOrderRequest` fields the adapter fills in. -/
structure CancelAlgoReq where
  instID : Str
  algoID : Str

deriving DecidableEq

/-- The `trade.PlaceAlgoOrderRequest` fields the adapter fills in (Go zero
value "" marks an unset trigger/price field). -/
structure AlgoReq where
  instID : Str
  tdMode : Str
  side : Str
  posSide : Str
  ordType : Str
  sz : Str
  slTriggerPx : Str
  slOrdPx : Str
  tpTriggerPx : Str
  tpOrdPx : Str

deriving DecidableEq

/-- One exchange call issued by the adapter, recorded in the trace. -/
inductive Act where
  | getInstruments (instID : Str)
  | placeOrder (req : OrderReq)
  | setLeverage (req : LevReq)
  | getPositions (req : PosReq)
  | getAccount (ccy : Str)
  | getAlgoList (req : AlgoListReq)
  | cancelAlgo (req : CancelAlgoReq)
  | placeAlgo (req : AlgoReq)

deriving DecidableEq

/-- The opaque authenticated REST client: each endpoint is an oracle from
the request the adapter builds to the response the exchange returns. -/
structure Exchange where
  getInstruments : Str → Except Err (List Instrument)
  placeOrder : OrderReq → Except Err (List OrderData)
  setLeverage : LevReq → Except Err Unit
  getPositions : PosReq → Except Err (List RawPos)
  getAccount : Str → Except Err (List AccountData)
  getAlgoOrderList : AlgoListReq → Except Err (List AlgoEntry)
  cancelAlgoOrder : CancelAlgoReq → Except Err Unit
  placeAlgoOrder : AlgoReq → Except Err (List AlgoRespData)

/-- Mutable trader state: the precision cache (`sync.Map` contents) plus the
chronological trace of exchange calls made so far. -/
structure St where
  cache : List (Str × Nat)
  trace : List Act

/-- Record one exchange call in the trace. -/
def St.log (st : St) (a : Act) : St := { st with trace := st.trace ++ [a] }

/-- The initial state of a fresh trader: empty cache, no calls yet. -/
def st0 : St := { cache := [], trace := [] }

/-- Cache lookup (`sync.Map.Load`). -/
def assocFind : List (Str × Nat) → Str → Option Nat
  | [], _ => none
  | (k, v) :: rest, key => if k = key then some v else assocFind rest key

def strBuy : Str := "buy".data

def strSell : Str := "sell".data

def strMarket : Str := "market".data

def strLong : Str := "long".data

def strShort : Str := "short".data

def strIsolated : Str := "isolated".data

def strSWAP : Str := "SWAP".data

def strStop : Str := "stop".data

def strTp : Str := "tp".data

def str0 : Str := "0".data

def strFILLED : Str := "FILLED".data

def strNeg1 : Str := "-1".data

def keyLotSz : Str := "_lotSz".data

def keyTickSz : Str := "_tickSz".data

/-- The substring of the exchange error that `SetLeverage` tolerates. -/
def patLevNotChange : Str := "Leverage not change".data

def errNoInst (instID : Str) : Err := "未找到合约信息: ".data ++ instID

def errPlaceWrap (instID side sz : Str) (e : Err) : Err :=
  "OKX PlaceOrder 失败 (".data ++ instID ++ " ".data ++ side ++ " ".data ++ sz
    ++ "): ".data ++ e

def errNoOrderData : Err := "OKX PlaceOrder 未返回订单数据".data

def errOrderFail (sMsg sCode : Str) : Err :=
  "OKX 下单失败: ".data ++ sMsg ++ " (code: ".data ++ sCode ++ ")".data

def errNoLong (symbol : Str) : Err := "没有找到 ".data ++ symbol ++ " 的多仓".data

def errNoShort (symbol : Str) : Err := "没有找到 ".data ++ symbol ++ " 的空仓".data

def errLevWrap (e : Err) : Err := "OKX SetLeverage 失败: ".data ++ e

def errGetPosWrap (e : Err) : Err := "OKX GetPositions 失败: ".data ++ e

def errGetBalWrap (e : Err) : Err := "OKX GetBalance 失败: ".data ++ e

def errNoAcct : Err := "OKX GetBalance: 未返回账户数据".data

def errAlgoWrap (e : Err) : Err := "OKX PlaceAlgoOrder 失败: ".data ++ e

def errAlgoNoData : Err := "OKX PlaceAlgoOrder 未返回数据".data

def errAlgoFail (sMsg sCode : Str) : Err :=
  "OKX PlaceAlgoOrder 失败: ".data ++ sMsg ++ " (code: ".data ++ sCode ++ ")".data

/-- Response part of `getInstrument` (the call resolves `resp.Data[0]` after
an emptiness check). -/
def getInstrumentResp (ex : Exchange) (instID : Str) : Except Err Instrument :=
  match ex.getInstruments instID with
  | .error e => .error e
  | .ok [] => .error (errNoInst instID)
  | .ok (inst :: _) => .ok inst

/-- Embedding of `getInstrument`, with the call recorded in the trace. -/
def getInstrument (ex : Exchange) (st : St) (instID : Str) : Except Err Instrument × St :=
  (getInstrumentResp ex instID, st.log (Act.getInstruments instID))

/-- Modelled from the spec: `calculatePrecision` is called by the source but
its definition is not among the provided files. Per the spec it "derives
digit count from the metadata's minimum-step field (count of digits after
the decimal point, zero if the step is integral)". -/
def calculatePrecision (step : Str) : Nat :=
  match step.dropWhile (fun c => ¬ c = '.') with
  | [] => 0
  | _ :: frac => frac.length

/-- Embedding of `getLotSzPrecision`: cached quantity precision for an
instrument, fetched from instrument metadata on a cache miss. -/
def getLotSzPrecision (ex : Exchange) (st : St) (instID : Str) : Except Err Nat × St :=
  match assocFind st.cache (instID ++ keyLotSz) with
  | some v => (.ok v, st)
  | none =>
    match getInstrument ex st instID with
    | (.error e, st₁) => (.error e, st₁)
    | (.ok inst, st₁) =>
      (.ok (calculatePrecision inst.lotSz),
       { st₁ with cache := (instID ++ keyLotSz, calculatePrecision inst.lotSz) :: st₁.cache })

/-- Embedding of `getTickSzPrecision`: cached price precision. -/
def getTickSzPrecision (ex : Exchange) (st : St) (instID : Str) : Except Err Nat × St :=
  match assocFind st.cache (instID ++ keyTickSz) with
  | some v => (.ok v, st)
  | none =>
    match getInstrument ex st instID with
    | (.error e, st₁) => (.error e, st₁)
    | (.ok inst, st₁) =>
      (.ok (calculatePrecision inst.tickSz),
       { st₁ with cache := (instID ++ keyTickSz, calculatePrecision inst.tickSz) :: st₁.cache })

/-- Embedding of `FormatQuantity`: the argument is converted with `okxSymbol`
once more, the precision is resolved (default 3 on failure), and the value
is rendered; the returned Go error is always nil. -/
def FormatQuantity (ex : Exchange) (st : St) (symbol : Str) (quantity : ℚ) :
    Except Err Str × St :=
  match getLotSzPrecision ex st (okxSymbol symbol) with
  | (.error _, st₁) => (.ok (formatFixed 3 quantity), st₁)
  | (.ok precision, st₁) => (.ok (formatFixed precision quantity), st₁)

/-- Embedding of `FormatPrice` (default precision 2 on lookup failure). -/
def FormatPrice (ex : Exchange) (st : St) (symbol : Str) (price : ℚ) :
    Except Err Str × St :=
  match getTickSzPrecision ex st (okxSymbol symbol) with
  | (.error _, st₁) => (.ok (formatFixed 2 price), st₁)
  | (.ok precision, st₁) => (.ok (formatFixed precision price), st₁)

/-- Normalized order result (`map[string]interface{}` with keys `orderId`,
`symbol`, `status`). -/
structure OrderResult where
  orderId : Str
  symbol : Str
  status : Str

deriving DecidableEq

/-- Embedding of the internal `placeOrder`: formats the quantity (passing the
already-converted instrument ID to `FormatQuantity`), submits the market
order, and normalizes the response. -/
def orderReqOf (symbol side ordType posSide sz : Str) : OrderReq :=
  { instID := okxSymbol symbol, tdMode := strIsolated, side := side,
    ordType := ordType, sz := sz, posSide := posSide }

def placeOrder (ex : Exchange) (st : St) (symbol side ordType posSide : Str)
    (quantity : ℚ) : Except Err OrderResult × St :=
  match FormatQuantity ex st (okxSymbol symbol) quantity with
  | (.error e, st₁) => (.error e, st₁)
  | (.ok quantityStr, st₁) =>
    let req : OrderReq := orderReqOf symbol side ordType posSide quantityStr
    let st₂ := st₁.log (Act.placeOrder req)
    match ex.placeOrder req with
    | .error e => (.error (errPlaceWrap (okxSymbol symbol) side quantityStr e), st₂)
    | .ok [] => (.error errNoOrderData, st₂)
    | .ok (d :: _) =>
      if ¬ d.sCode = str0 then (.error (errOrderFail d.sMsg d.sCode), st₂)
      else (.ok { orderId := d.ordID, symbol := symbol, status := strFILLED }, st₂)

/-- Embedding of `SetLeverage`: isolated-margin leverage set that tolerates a
"Leverage not change" rejection (the 500ms settling delay is a real-time
effect outside the model). -/
def levReqOf (symbol : Str) (leverage : Int) : LevReq :=
  { instID := okxSymbol symbol, lever := intToStr leverage, mgnMode := strIsolated }

def SetLeverage (ex : Exchange) (st : St) (symbol : Str) (leverage : Int) :
    Except Err Unit × St :=
  let req : LevReq := levReqOf symbol leverage
  let st₁ := st.log (Act.setLeverage req)
  match ex.setLeverage req with
  | .error e =>
    if containsSub patLevNotChange e then (.ok (), st₁)
    else (.error (errLevWrap e), st₁)
  | .ok _ => (.ok (), st₁)

/-- First position of the requested side, as the Go `for` loop returns it. -/
def findSide : List RawPos → Str → Option RawPos
  | [], _ => none
  | p :: rest, side => if p.posSide = side then some p else findSide rest side

def posReqInst (instID : Str) : PosReq := { instType := [], instID := instID }

def posReqSwap : PosReq := { instType := strSWAP, instID := [] }

/-- Embedding of `getSpecificPosition`: `nil, nil` (no error) when no entry of
the requested side exists. -/
def getSpecificPosition (ex : Exchange) (st : St) (symbol posSide : Str) :
    Except Err (Option RawPos) × St :=
  let st₁ := st.log (Act.getPositions (posReqInst (okxSymbol symbol)))
  match ex.getPositions (posReqInst (okxSymbol symbol)) with
  | .error e => (.error e, st₁)
  | .ok data => (.ok (findSide data posSide), st₁)

/-- Embedding of `CloseLong`: a zero quantity is resolved from the current
long position (error if none), then a sell market order closes it. -/
def CloseLong (ex : Exchange) (st : St) (symbol : Str) (quantity : ℚ) :
    Except Err OrderResult × St :=
  if quantity = 0 then
    match getSpecificPosition ex st symbol strLong with
    | (.error e, st₁) => (.error e, st₁)
    | (.ok none, st₁) => (.error (errNoLong symbol), st₁)
    | (.ok (some pos), st₁) =>
      placeOrder ex st₁ symbol strSell strMarket strLong (parseFloat pos.pos)
  else placeOrder ex st symbol strSell strMarket strLong quantity

/-- Embedding of `CloseShort` (mirror of `CloseLong`). -/
def CloseShort (ex : Exchange) (st : St) (symbol : Str) (quantity : ℚ) :
    Except Err OrderResult × St :=
  if quantity = 0 then
    match getSpecificPosition ex st symbol strShort with
    | (.error e, st₁) => (.error e, st₁)
    | (.ok none, st₁) => (.error (errNoShort symbol), st₁)
    | (.ok (some pos), st₁) =>
      placeOrder ex st₁ symbol strBuy strMarket strShort (parseFloat pos.pos)
  else placeOrder ex st symbol strBuy strMarket strShort quantity

/-- Normalized position map produced by `GetPositions` for one raw entry. -/
structure PosEntry where
  symbol : Str
  side : Str
  positionAmt : ℚ
  entryPrice : ℚ
  markPrice : ℚ
  unRealizedProfit : ℚ
  leverage : ℚ
  liquidationPrice : ℚ

deriving DecidableEq

def mkPosEntry (pos : RawPos) : PosEntry :=
  { symbol := standardSymbol pos.instID
    side := pos.posSide
    positionAmt := parseFloat pos.pos
    entryPrice := parseFloat pos.avgPx
    markPrice := parseFloat pos.markPx
    unRealizedProfit := parseFloat pos.upl
    leverage := parseFloat pos.lever
    liquidationPrice := parseFloat pos.liqPx }

/-- The `for` loop of `GetPositions`: skip zero-amount entries, normalize the
rest in source order. -/
def buildPositions : List RawPos → List PosEntry
  | [] => []
  | pos :: rest =>
    if parseFloat pos.pos = 0 then buildPositions rest
    else mkPosEntry pos :: buildPositions rest

/-- Embedding of `GetPositions`: all SWAP positions, normalized and filtered. -/
def GetPositions (ex : Exchange) (st : St) : Except Err (List PosEntry) × St :=
  let st₁ := st.log (Act.getPositions posReqSwap)
  match ex.getPositions posReqSwap with
  | .error e => (.error (errGetPosWrap e), st₁)
  | .ok data => (.ok (buildPositions data), st₁)

/-- Normalized balance map produced by `GetBalance`. -/
structure BalanceResult where
  totalWalletBalance : ℚ
  availableBalance : ℚ
  totalUnrealizedProfit : ℚ

deriving DecidableEq

/-- Embedding of `GetBalance`: equity data for USDT, with
`totalWalletBalance = totalEq - upl`. -/
def GetBalance (ex : Exchange) (st : St) : Except Err BalanceResult × St :=
  let st₁ := st.log (Act.getAccount strUSDT)
  match ex.getAccount strUSDT with
  | .error e => (.error (errGetBalWrap e), st₁)
  | .ok [] => (.error errNoAcct, st₁)
  | .ok (acc :: _) =>
    (.ok { totalWalletBalance := parseFloat acc.totalEq - parseFloat acc.upl
           availableBalance := parseFloat acc.availEq
           totalUnrealizedProfit := parseFloat acc.upl }, st₁)

/-- Embedding of the internal `placeAlgoOrder`: the closing trade side is
"sell" unless the protected side is "short", and the trigger/price fields
are populated according to the order type. -/
def algoReqOf (symbol posSide ordType triggerPrice sz : Str) : AlgoReq :=
  let side := if posSide = strShort then strBuy else strSell
  let baseReq : AlgoReq := { instID := okxSymbol symbol, tdMode := strIsolated, side := side,
                             posSide := posSide, ordType := ordType, sz := sz,
                             slTriggerPx := [], slOrdPx := [], tpTriggerPx := [], tpOrdPx := [] }
  if ordType = strStop then { baseReq with slTriggerPx := triggerPrice, slOrdPx := strNeg1 }
  else if ordType = strTp then { baseReq with tpTriggerPx := triggerPrice, tpOrdPx := strNeg1 }
  else baseReq

def placeAlgoOrder (ex : Exchange) (st : St) (symbol posSide ordType triggerPrice sz : Str) :
    Except Err Unit × St :=
  let req : AlgoReq := algoReqOf symbol posSide ordType triggerPrice sz
  let st₁ := st.log (Act.placeAlgo req)
  match ex.placeAlgoOrder req with
  | .error e => (.error (errAlgoWrap e), st₁)
  | .ok [] => (.error errAlgoNoData, st₁)
  | .ok (d :: _) =>
    if ¬ d.sCode = str0 then (.error (errAlgoFail d.sMsg d.sCode), st₁)
    else (.ok (), st₁)

/-- Embedding of `SetStopLoss`: lower-cases the position side, formats
quantity and trigger price (the price formatting error is discarded, as in
the source), and places a "stop" algo order. -/
def SetStopLoss (ex : Exchange) (st : St) (symbol positionSide : Str)
    (quantity stopPrice : ℚ) : Except Err Unit × St :=
  let posSide := toLower positionSide
  match FormatQuantity ex st (okxSymbol symbol) quantity with
  | (.error e, st₁) => (.error e, st₁)
  | (.ok quantityStr, st₁) =>
    let pr := FormatPrice ex st₁ (okxSymbol symbol) stopPrice
    let stopPriceStr := match pr.1 with | .ok s => s | .error _ => []
    placeAlgoOrder ex pr.2 symbol posSide strStop stopPriceStr quantityStr

/-- Embedding of `SetTakeProfit` (mirror of `SetStopLoss` with a "tp" order). -/
def SetTakeProfit (ex : Exchange) (st : St) (symbol positionSide : Str)
    (quantity takeProfitPrice : ℚ) : Except Err Unit × St :=
  let posSide := toLower positionSide
  match FormatQuantity ex st (okxSymbol symbol) quantity with
  | (.error e, st₁) => (.error e, st₁)
  | (.ok quantityStr, st₁) =>
    let pr := FormatPrice ex st₁ (okxSymbol symbol) takeProfitPrice
    let tpPriceStr := match pr.1 with | .ok s => s | .error _ => []
    placeAlgoOrder ex pr.2 symbol posSide strTp tpPriceStr quantityStr

def algoListReq (instID ordType : Str) : AlgoListReq :=
  { instType := strSWAP, instID := instID, ordType := ordType }

/-- The per-order cancellation loop of `CancelAllOrders`: each cancel call is
issued and its result discarded, exactly as in the source. -/
def cancelEach (ex : Exchange) (st : St) (instID : Str) : List AlgoEntry → St
  | [] => st
  | a :: rest =>
    let req : CancelAlgoReq := { instID := instID, algoID := a.algoID }
    let _ := ex.cancelAlgoOrder req
    cancelEach ex (st.log (Act.cancelAlgo req)) instID rest

/-- Embedding of `CancelAllOrders`: list-and-cancel pass over "stop" orders,
then over "tp" orders; a listing failure skips only that pass, and the
function unconditionally returns success. -/
def CancelAllOrders (ex : Exchange) (st : St) (symbol : Str) : Except Err Unit × St :=
  let instID := okxSymbol symbol
  let st₁ := st.log (Act.getAlgoList (algoListReq instID strStop))
  let st₂ :=
    match ex.getAlgoOrderList (algoListReq instID strStop) with
    | .ok data => cancelEach ex st₁ instID data
    | .error _ => st₁
  let st₃ := st₂.log (Act.getAlgoList (algoListReq instID strTp))
  let st₄ :=
    match ex.getAlgoOrderList (algoListReq instID strTp) with
    | .ok data => cancelEach ex st₃ instID data
    | .error _ => st₃
  (.ok (), st₄)

def strBTCUSDT : Str := "BTCUSDT".data

/-- A raw long position of size 2 on BTC-USDT-SWAP. -/
def rawLong2 : RawPos :=
  { instID := "BTC-USDT-SWAP".data, posSide := strLong, pos := "2".data, avgPx := "10".data,
    markPx := "11".data, upl := "1".data, lever := "5".data, liqPx := "9".data }

/-- A sample exchange: instrument metadata unavailable, orders accepted, one
long position open, stop-order listing broken but take-profit listing
returns one order. -/
def exA : Exchange :=
  { getInstruments := fun _ => .error "no instrument".data
    placeOrder := fun _ => .ok [{ sCode := str0, sMsg := [], ordID := "123".data }]
    setLeverage := fun _ => .ok ()
    getPositions := fun _ => .ok [rawLong2]
    getAccount := fun _ => .ok [{ totalEq := "1000".data, upl := "50".data, availEq := "800".data }]
    getAlgoOrderList := fun req => if req.ordType = strStop then .error "boom".data
      else .ok [{ algoID := "a1".data }]
    cancelAlgoOrder := fun _ => .ok ()
    placeAlgoOrder := fun _ => .ok [{ sCode := str0, sMsg := [] }] }

/-- A sample exchange that reports the leverage as unchanged and has no open
positions. -/
def exB : Exchange :=
  { exA with
    setLeverage := fun _ => .error "okx 59107: Leverage not change".data
    getPositions := fun _ => .ok [] }

deriving instance DecidableEq for Except

/-- A zero-amount long position (raw). -/
def rawZero : RawPos :=
  { instID := "BTC-USDT-SWAP".data, posSide := strLong, pos := "0".data, avgPx := "10".data,
    markPx := "10".data, upl := "0".data, lever := "5".data, liqPx := "1".data }

/-- A short ETH position of size 2.5 (raw). -/
def rawEth : RawPos :=
  { instID := "ETH-USDT-SWAP".data, posSide := strShort, pos := "2.5".data, avgPx := "10".data,
    markPx := "10".data, upl := "0".data, lever := "5".data, liqPx := "1".data }

/-- A sample exchange holding a zero BTC long and a 2.5 ETH short. -/
def exC8 : Exchange := { exA with getPositions := fun _ => .ok [rawZero, rawEth] }

/-- A raw position whose amount field is not a number. -/
def rawBad : RawPos :=
  { instID := "BTC-USDT-SWAP".data, posSide := strLong, pos := "abc".data, avgPx := "10".data,
    markPx := "10".data, upl := "0".data, lever := "5".data, liqPx := "1".data }

/-- An account record with malformed equity and PnL fields. -/
def accBad : AccountData := { totalEq := "xx".data, upl := "yy".data, availEq := "800".data }

/-- A sample exchange whose responses carry the malformed numeric fields. -/
def exC10 : Exchange :=
  { exA with getPositions := fun _ => .ok [rawBad], getAccount := fun _ => .ok [accBad] }

lemma pfx_iff (l₁ l₂ : Str) : pfx l₁ l₂ = true ↔ l₁ <+: l₂ := by
  induction l₁ generalizing l₂ with
  | nil => simp [pfx, List.nil_prefix]
  | cons a as ih =>
    cases l₂ with
    | nil =>
      simp only [pfx, Bool.false_eq_true, false_iff]
      intro h
      simpa using h.length_le
    | cons b bs =>
      simp [pfx, ih, List.cons_prefix_cons, and_comm]

lemma pfx_refl (l : Str) : pfx l l = true := (pfx_iff l l).mpr List.prefix_rfl

lemma sfx_iff (l s : Str) : sfx l s = true ↔ l <:+ s := by
  rw [sfx, pfx_iff]
  exact List.reverse_prefix

lemma containsSub_iff (old s : Str) : containsSub old s = true ↔ old <:+: s := by
  induction s with
  | nil =>
    cases old with
    | nil => simp [containsSub, pfx]
    | cons c cs => simp [containsSub, pfx]
  | cons c rest ih =>
    simp [containsSub, ih, pfx_iff, List.infix_cons_iff]

/-- If `old` is a prefix of `p ++ old` and `old` is no longer than `p`, then
`old` is a prefix of `p` itself. -/
lemma pfx_append_right {old p : Str} (h : pfx old (p ++ old) = true)
    (hl : old.length ≤ p.length) : old <+: p := by
  rw [pfx_iff, List.prefix_iff_eq_take] at h
  rw [List.take_append_eq_append_take, Nat.sub_eq_zero_of_le hl, List.take_zero,
    List.append_nil] at h
  rw [List.prefix_iff_eq_take]
  exact h

/-- Replacing the first occurrence of `old` in `p ++ old`, when `old` does not
occur in `p` and cannot straddle the junction, substitutes the final copy. -/
lemma replaceFirst_append_suffix (old new : Str) (hold : old ≠ [])
    (hno : ∀ q : Str, q ≠ [] → ¬ old <:+: q → pfx old (q ++ old) = false) :
    ∀ p : Str, ¬ old <:+: p → replaceFirst old new (p ++ old) = p ++ new := by
  intro p
  induction p with
  | nil =>
    intro _
    match old, hold with
    | c :: r, _ =>
      show replaceFirst (c :: r) new (c :: r) = new
      rw [replaceFirst, if_pos (pfx_refl (c :: r)), List.drop_length, List.append_nil]
  | cons c p' ih =>
    intro hp
    have hp' : ¬ old <:+: p' := fun hc => hp (List.infix_cons_iff.mpr (Or.inr hc))
    have hpfx : pfx old ((c :: p') ++ old) = false :=
      hno (c :: p') (by simp) hp
    rw [List.cons_append, replaceFirst, List.cons_append] at *
    rw [if_neg (by simp [hpfx]), ih hp']

/-- The pattern "USDT" cannot begin inside a non-empty `q` not containing it
and still match across the junction of `q ++ "USDT"`. -/
lemma hno_usdt : ∀ q : Str, q ≠ [] → ¬ strUSDT <:+: q → pfx strUSDT (q ++ strUSDT) = false := by
  intro q hq hinf
  match q with
  | [] => exact absurd rfl hq
  | [a] =>
    simp only [strUSDT, List.cons_append, List.nil_append, pfx,
      (by decide : decide ('S' = 'U') = false), Bool.false_and, Bool.and_false]
  | [a, b] =>
    simp only [strUSDT, List.cons_append, List.nil_append, pfx,
      (by decide : decide ('D' = 'U') = false), Bool.false_and, Bool.and_false]
  | [a, b, c] =>
    simp only [strUSDT, List.cons_append, List.nil_append, pfx,
      (by decide : decide ('T' = 'U') = false), Bool.false_and, Bool.and_false]
  | a :: b :: c :: d :: rest =>
    cases hpf : pfx strUSDT ((a :: b :: c :: d :: rest) ++ strUSDT) with
    | false => rfl
    | true =>
      exact absurd ((pfx_append_right hpf (by simp [strUSDT])).isInfix) hinf

/-- The pattern "-USDT-SWAP" likewise cannot straddle the junction of
`q ++ "-USDT-SWAP"` when `q` is non-empty and does not contain it. -/
lemma hno_swap : ∀ q : Str, q ≠ [] → ¬ strSwapSuffix <:+: q →
    pfx strSwapSuffix (q ++ strSwapSuffix) = false := by
  intro q hq hinf
  match q with
  | [] => exact absurd rfl hq
  | [a] =>
    simp only [strSwapSuffix, List.cons_append, List.nil_append, pfx,
      (by decide : decide ('U' = '-') = false), Bool.false_and, Bool.and_false]
  | [a, b] =>
    simp only [strSwapSuffix, List.cons_append, List.nil_append, pfx,
      (by decide : decide ('S' = '-') = false), Bool.false_and, Bool.and_false]
  | [a, b, c] =>
    simp only [strSwapSuffix, List.cons_append, List.nil_append, pfx,
      (by decide : decide ('D' = '-') = false), Bool.false_and, Bool.and_false]
  | [a, b, c, d] =>
    simp only [strSwapSuffix, List.cons_append, List.nil_append, pfx,
      (by decide : decide ('T' = '-') = false), Bool.false_and, Bool.and_false]
  | [a, b, c, d, e] =>
    simp only [strSwapSuffix, List.cons_append, List.nil_append, pfx,
      (by decide : decide ('S' = 'U') = false), Bool.false_and, Bool.and_false]
  | [a, b, c, d, e, f] =>
    simp only [strSwapSuffix, List.cons_append, List.nil_append, pfx,
      (by decide : decide ('S' = '-') = false), Bool.false_and, Bool.and_false]
  | [a, b, c, d, e, f, g] =>
    simp only [strSwapSuffix, List.cons_append, List.nil_append, pfx,
      (by decide : decide ('W' = '-') = false), Bool.false_and, Bool.and_false]
  | [a, b, c, d, e, f, g, i] =>
    simp only [strSwapSuffix, List.cons_append, List.nil_append, pfx,
      (by decide : decide ('A' = '-') = false), Bool.false_and, Bool.and_false]
  | [a, b, c, d, e, f, g, i, j] =>
    simp only [strSwapSuffix, List.cons_append, List.nil_append, pfx,
      (by decide : decide ('P' = '-') = false), Bool.false_and, Bool.and_false]
  | a :: b :: c :: d :: e :: f :: g :: i :: j :: k :: rest =>
    cases hpf : pfx strSwapSuffix ((a :: b :: c :: d :: e :: f :: g :: i :: j :: k :: rest)
        ++ strSwapSuffix) with
    | false => rfl
    | true =>
      exact absurd ((pfx_append_right hpf (by simp [strSwapSuffix])).isInfix) hinf

lemma usdt_infix_swap : strUSDT <:+: strSwapSuffix :=
  ⟨['-'], ['-', 'S', 'W', 'A', 'P'], rfl⟩

/-- C2 (amended): for every symbol of the form `p ++ "USDT"` in which "USDT"
does not occur before the terminal suffix, translating to the instrument ID
and back is the identity: `standardSymbol (okxSymbol s) = s`. -/
theorem C2_roundTrip (p : Str) (h : ¬ strUSDT <:+: p) :
    standardSymbol (okxSymbol (p ++ strUSDT)) = p ++ strUSDT := by
  have h1 : sfx strUSDT (p ++ strUSDT) = true := (sfx_iff _ _).mpr (List.suffix_append _ _)
  have e1 : okxSymbol (p ++ strUSDT) = p ++ strSwapSuffix := by
    rw [okxSymbol, if_pos h1]
    exact replaceFirst_append_suffix strUSDT strSwapSuffix (by decide) hno_usdt p h
  have h2 : ¬ strSwapSuffix <:+: p := fun hc => h (usdt_infix_swap.trans hc)
  have h3 : sfx strSwapSuffix (p ++ strSwapSuffix) = true :=
    (sfx_iff _ _).mpr (List.suffix_append _ _)
  rw [e1, standardSymbol, if_pos h3]
  exact replaceFirst_append_suffix strSwapSuffix strUSDT (by decide) hno_swap p h2

/-- Witness for C2: the round trip is the identity on "BTCUSDT". -/
theorem C2_roundTrip_witness :
    standardSymbol (okxSymbol (['B', 'T', 'C'] ++ strUSDT)) = ['B', 'T', 'C'] ++ strUSDT :=
  C2_roundTrip ['B', 'T', 'C'] (by decide)

/-- Counterexample to C2 as stated: the symbol "USDTUSDT" ends in "USDT", yet
the round trip yields "-USDT-SWAPUSDT", not the original symbol, because
`okxSymbol` replaces the first occurrence of "USDT" rather than the suffix. -/
theorem C2_counterexample :
    sfx strUSDT ['U', 'S', 'D', 'T', 'U', 'S', 'D', 'T'] = true ∧
    standardSymbol (okxSymbol ['U', 'S', 'D', 'T', 'U', 'S', 'D', 'T'])
      ≠ ['U', 'S', 'D', 'T', 'U', 'S', 'D', 'T'] := by decide

lemma digCh_ne_dot (n : Nat) : digCh n ≠ '.' := by
  unfold digCh
  repeat' split
  all_goals decide

lemma takeWhile_append_stop (pred : Char → Bool) (l₁ l₂ : Str)
    (h : ∀ c ∈ l₁, pred c = true) (hstop : pred '.' = false) :
    (l₁ ++ '.' :: l₂).takeWhile pred = l₁ := by
  induction l₁ with
  | nil => simp [List.takeWhile, hstop]
  | cons c cs ih =>
    rw [List.cons_append, List.takeWhile_cons, h c (by simp)]
    rw [ih (fun x hx => h x (by simp [hx]))]
    simp

/-- A string of the form `pre ++ '.' :: frac` with no '.' in `frac` has
exactly `frac.length` characters after its last decimal point. -/
lemma fracLen_shape (pre frac : Str) (hfrac : ∀ c ∈ frac, c ≠ '.') :
    fracLen (pre ++ '.' :: frac) = frac.length := by
  rw [fracLen, List.reverse_append, List.reverse_cons, List.append_assoc,
    List.singleton_append]
  rw [takeWhile_append_stop _ frac.reverse pre.reverse
    (fun c hc => by rw [List.mem_reverse] at hc; simpa using hfrac c hc) (by decide)]
  simp

/-- The fixed-point rendering with a positive digit count always contains a
decimal point and has exactly `p` digits after it. -/
lemma fracLen_formatFixed (p : Nat) (hp : p ≠ 0) (v : ℚ) :
    fracLen (formatFixed p v) = p ∧ '.' ∈ formatFixed p v := by
  have hshape : formatFixed p v =
      ((if roundQ (v * (10 : ℚ) ^ p) < 0 then ['-'] else []) ++
        natToStr ((roundQ (v * (10 : ℚ) ^ p)).natAbs / 10 ^ p)) ++
      '.' :: (List.range p).map
        (fun i => digCh ((roundQ (v * (10 : ℚ) ^ p)).natAbs % 10 ^ p / 10 ^ (p - 1 - i) % 10)) := by
    rw [formatFixed, if_neg hp, List.append_assoc]
  rw [hshape]
  constructor
  · rw [fracLen_shape _ _ (fun c hc => ?_)]
    · simp
    · obtain ⟨i, _, rfl⟩ := List.mem_map.mp hc
      exact digCh_ne_dot _
  · exact List.mem_append_right _ (List.mem_cons_self _ _)

lemma FormatQuantity_isOk (ex : Exchange) (st : St) (symbol : Str) (q : ℚ) :
    ∃ s st₁, FormatQuantity ex st symbol q = (.ok s, st₁) := by
  unfold FormatQuantity
  rcases hg : getLotSzPrecision ex st (okxSymbol symbol) with ⟨r, st₁⟩
  cases r with
  | error e => exact ⟨formatFixed 3 q, st₁, rfl⟩
  | ok p => exact ⟨formatFixed p q, st₁, rfl⟩

lemma FormatPrice_isOk (ex : Exchange) (st : St) (symbol : Str) (v : ℚ) :
    ∃ s st₁, FormatPrice ex st symbol v = (.ok s, st₁) := by
  unfold FormatPrice
  rcases hg : getTickSzPrecision ex st (okxSymbol symbol) with ⟨r, st₁⟩
  cases r with
  | error e => exact ⟨formatFixed 2 v, st₁, rfl⟩
  | ok p => exact ⟨formatFixed p v, st₁, rfl⟩

/-- C4: `FormatQuantity` and `FormatPrice` never return an error for any
symbol and value; when the instrument-metadata lookup fails (cache miss and
failing metadata resolution), the value is rendered as a fixed-point string
with exactly 3 (respectively 2) digits after the decimal point. -/
theorem C4_format_never_fails_fallback_digits (ex : Exchange) (st : St) (symbol : Str)
    (q pr : ℚ) :
    (∃ s st₁, FormatQuantity ex st symbol q = (.ok s, st₁)) ∧
    (∃ s st₁, FormatPrice ex st symbol pr = (.ok s, st₁)) ∧
    (assocFind st.cache (okxSymbol symbol ++ keyLotSz) = none →
      ∀ e, getInstrumentResp ex (okxSymbol symbol) = .error e →
        (FormatQuantity ex st symbol q).1 = .ok (formatFixed 3 q) ∧
        fracLen (formatFixed 3 q) = 3 ∧ '.' ∈ formatFixed 3 q) ∧
    (assocFind st.cache (okxSymbol symbol ++ keyTickSz) = none →
      ∀ e, getInstrumentResp ex (okxSymbol symbol) = .error e →
        (FormatPrice ex st symbol pr).1 = .ok (formatFixed 2 pr) ∧
        fracLen (formatFixed 2 pr) = 2 ∧ '.' ∈ formatFixed 2 pr) := by
  refine ⟨FormatQuantity_isOk ex st symbol q, FormatPrice_isOk ex st symbol pr,
    fun hc e hi => ?_, fun hc e hi => ?_⟩
  · have hg : getLotSzPrecision ex st (okxSymbol symbol) =
        (.error e, st.log (Act.getInstruments (okxSymbol symbol))) := by
      simp only [getLotSzPrecision, hc, getInstrument, hi]
    exact ⟨by simp only [FormatQuantity, hg],
      (fracLen_formatFixed 3 (by decide) q).1, (fracLen_formatFixed 3 (by decide) q).2⟩
  · have hg : getTickSzPrecision ex st (okxSymbol symbol) =
        (.error e, st.log (Act.getInstruments (okxSymbol symbol))) := by
      simp only [getTickSzPrecision, hc, getInstrument, hi]
    exact ⟨by simp only [FormatPrice, hg],
      (fracLen_formatFixed 2 (by decide) pr).1, (fracLen_formatFixed 2 (by decide) pr).2⟩

/-- Witness for C4: with the metadata lookup failing, `FormatQuantity` on
1.23456 succeeds and renders 3 decimal digits. -/
theorem C4_witness :
    (FormatQuantity exA st0 strBTCUSDT (123456 / 100000)).1 =
      .ok (formatFixed 3 (123456 / 100000)) ∧
    fracLen (formatFixed 3 (123456 / 100000)) = 3 ∧
    '.' ∈ formatFixed 3 (123456 / 100000) :=
  (C4_format_never_fails_fallback_digits exA st0 strBTCUSDT (123456 / 100000) 1).2.2.1
    rfl "no instrument".data rfl

/-- C1: refuted by the code. Placing an order on "BTCUSDT" issues its
precision lookup (the `getInstruments` call inside `FormatQuantity`) for the
doubly-converted identifier `okxSymbol (okxSymbol "BTCUSDT")` =
"BTC-USDT-SWAP-USDT-SWAP", which differs from the `InstID`
"BTC-USDT-SWAP" of the submitted order request: `placeOrder` hands the
already-converted instrument ID to `FormatQuantity`, which converts it
again. -/
theorem C1_precision_lookup_wrong_instrument :
    (placeOrder exA st0 strBTCUSDT strBuy strMarket strLong 1).2.trace =
      [Act.getInstruments (okxSymbol (okxSymbol strBTCUSDT)),
       Act.placeOrder (orderReqOf strBTCUSDT strBuy strMarket strLong (formatFixed 3 1))] ∧
    (orderReqOf strBTCUSDT strBuy strMarket strLong (formatFixed 3 1)).instID =
      okxSymbol strBTCUSDT ∧
    ¬ okxSymbol (okxSymbol strBTCUSDT) = okxSymbol strBTCUSDT := by
  with_unfolding_all decide

/-- C5: `placeOrder` fails when the exchange response has zero result entries
and when the first entry's status code is non-zero; on every success the
result carries status "FILLED", the order ID from the response, and the
caller's symbol. -/
theorem C5_placeOrder_result (ex : Exchange) (st : St) (symbol side ordType posSide : Str)
    (quantity : ℚ) :
    ((∀ r, ex.placeOrder r = .ok []) →
      (placeOrder ex st symbol side ordType posSide quantity).1 = .error errNoOrderData) ∧
    (∀ d rest, (∀ r, ex.placeOrder r = .ok (d :: rest)) → ¬ d.sCode = str0 →
      (placeOrder ex st symbol side ordType posSide quantity).1 =
        .error (errOrderFail d.sMsg d.sCode)) ∧
    (∀ res, (placeOrder ex st symbol side ordType posSide quantity).1 = .ok res →
      res.status = strFILLED ∧ res.symbol = symbol ∧
      ∃ req d rest, ex.placeOrder req = .ok (d :: rest) ∧ d.sCode = str0 ∧
        res.orderId = d.ordID) := by
  obtain ⟨s, st₁, hfq⟩ := FormatQuantity_isOk ex st (okxSymbol symbol) quantity
  refine ⟨fun h => ?_, fun d rest h hcode => ?_, fun res hres => ?_⟩
  · simp only [placeOrder, hfq, h]
  · simp only [placeOrder, hfq, h, if_pos hcode]
  · simp only [placeOrder, hfq] at hres
    cases hord : ex.placeOrder (orderReqOf symbol side ordType posSide s) with
    | error e => rw [hord] at hres; simp at hres
    | ok data =>
      cases data with
      | nil => rw [hord] at hres; simp at hres
      | cons d rest =>
        rw [hord] at hres
        dsimp only at hres
        by_cases hcode : d.sCode = str0
        · rw [if_neg (not_not_intro hcode)] at hres
          dsimp only at hres
          rw [Except.ok.injEq] at hres
          subst hres
          exact ⟨rfl, rfl, orderReqOf symbol side ordType posSide s, d, rest, hord, hcode, rfl⟩
        · rw [if_pos hcode] at hres
          simp at hres

/-- Witness for C5: on the sample exchange the placed order returns status
"FILLED" with the response's order ID and the caller's symbol. -/
theorem C5_witness :
    ({ orderId := "123".data, symbol := strBTCUSDT, status := strFILLED } : OrderResult).status
        = strFILLED ∧
    ({ orderId := "123".data, symbol := strBTCUSDT, status := strFILLED } : OrderResult).symbol
        = strBTCUSDT ∧
    ∃ req d rest, exA.placeOrder req = .ok (d :: rest) ∧ d.sCode = str0 ∧
      ({ orderId := "123".data, symbol := strBTCUSDT, status := strFILLED } :
        OrderResult).orderId = d.ordID :=
  (C5_placeOrder_result exA st0 strBTCUSDT strBuy strMarket strLong 1).2.2
    { orderId := "123".data, symbol := strBTCUSDT, status := strFILLED }
    (by with_unfolding_all decide)

/-- C7: `SetLeverage` succeeds when the exchange call succeeds and when the
exchange reports a "Leverage not change" condition; any other exchange
error is surfaced; hence two calls with the same arguments, each answered
with success or "unchanged", both succeed. -/
theorem C7_setLeverage_idempotent_success (ex : Exchange) (st : St) (symbol : Str)
    (leverage : Int) :
    (ex.setLeverage (levReqOf symbol leverage) = .ok () →
      (SetLeverage ex st symbol leverage).1 = .ok ()) ∧
    (∀ e, ex.setLeverage (levReqOf symbol leverage) = .error e →
      containsSub patLevNotChange e = true →
      (SetLeverage ex st symbol leverage).1 = .ok ()) ∧
    (∀ e, ex.setLeverage (levReqOf symbol leverage) = .error e →
      containsSub patLevNotChange e = false →
      (SetLeverage ex st symbol leverage).1 = .error (errLevWrap e)) ∧
    (∀ ex₂ : Exchange,
      (ex.setLeverage (levReqOf symbol leverage) = .ok () ∨
        ∃ e, ex.setLeverage (levReqOf symbol leverage) = .error e ∧
          containsSub patLevNotChange e = true) →
      (ex₂.setLeverage (levReqOf symbol leverage) = .ok () ∨
        ∃ e, ex₂.setLeverage (levReqOf symbol leverage) = .error e ∧
          containsSub patLevNotChange e = true) →
      (SetLeverage ex st symbol leverage).1 = .ok () ∧
      (SetLeverage ex₂ st symbol leverage).1 = .ok ()) := by
  have hok : ∀ ex' : Exchange,
      (ex'.setLeverage (levReqOf symbol leverage) = .ok () ∨
        ∃ e, ex'.setLeverage (levReqOf symbol leverage) = .error e ∧
          containsSub patLevNotChange e = true) →
      (SetLeverage ex' st symbol leverage).1 = .ok () := by
    intro ex' h
    rcases h with h | ⟨e, he, hpat⟩
    · simp [SetLeverage, h]
    · simp only [SetLeverage, he]
      rw [if_pos hpat]
  refine ⟨fun h => hok ex (Or.inl h), fun e he hpat => hok ex (Or.inr ⟨e, he, hpat⟩),
    fun e he hpat => ?_, fun ex₂ h1 h2 => ⟨hok ex h1, hok ex₂ h2⟩⟩
  simp only [SetLeverage, he]
  rw [if_neg (by simp [hpat])]

/-- Witness for C7: the first call (accepted) and the repeat call (answered
"Leverage not change") both succeed. -/
theorem C7_witness :
    (SetLeverage exA st0 strBTCUSDT 5).1 = .ok () ∧
    (SetLeverage exB st0 strBTCUSDT 5).1 = .ok () :=
  (C7_setLeverage_idempotent_success exA st0 strBTCUSDT 5).2.2.2 exB (Or.inl rfl)
    (Or.inr ⟨"okx 59107: Leverage not change".data, rfl, by decide⟩)

/-- The position loop keeps exactly the entries with non-zero parsed amount,
in source order, each normalized by `mkPosEntry`. -/
lemma buildPositions_eq (L : List RawPos) :
    buildPositions L = (L.filter fun pos => decide (¬ parseFloat pos.pos = 0)).map mkPosEntry := by
  induction L with
  | nil => rfl
  | cons pos rest ih =>
    by_cases h : parseFloat pos.pos = 0
    · simp [buildPositions, h, List.filter_cons, ih]
    · simp [buildPositions, h, List.filter_cons, ih]

/-- C8: `GetPositions` returns exactly the received entries whose parsed
amount is non-zero, in the order received, each with its instrument ID
translated to the canonical symbol by `standardSymbol` (inside
`mkPosEntry`). -/
theorem C8_getPositions_filters_and_translates (ex : Exchange) (st : St) (L : List RawPos)
    (h : ex.getPositions posReqSwap = .ok L) :
    (GetPositions ex st).1 =
      .ok ((L.filter fun pos => decide (¬ parseFloat pos.pos = 0)).map mkPosEntry) := by
  simp [GetPositions, h, buildPositions_eq]

/-- Witness for C8: of the positions [(BTCUSDT, long, 0), (ETHUSDT, short,
2.5)] only the ETH entry is returned, with translated symbol. -/
theorem C8_witness :
    (GetPositions exC8 st0).1 = .ok [mkPosEntry rawEth] ∧
    (mkPosEntry rawEth).symbol = "ETHUSDT".data ∧
    (mkPosEntry rawEth).positionAmt = 5 / 2 := by
  refine ⟨?_, by with_unfolding_all decide, by with_unfolding_all decide⟩
  rw [C8_getPositions_filters_and_translates exC8 st0 [rawZero, rawEth] rfl]
  with_unfolding_all decide

/-- C10: numeric strings from exchange responses are parsed with the error
discarded, so unparsable strings become 0; consequently a position with a
malformed amount is silently omitted by `GetPositions`, and malformed
equity or PnL fields yield 0 in what `GetBalance` returns. -/
theorem C10_malformed_numbers_become_zero :
    (∀ s, parseRat s = none → parseFloat s = 0) ∧
    (∀ (L₁ L₂ : List RawPos) (p : RawPos), parseRat p.pos = none →
      buildPositions (L₁ ++ p :: L₂) = buildPositions (L₁ ++ L₂)) ∧
    (∀ (ex : Exchange) (st : St) (L₁ L₂ : List RawPos) (p : RawPos),
      ex.getPositions posReqSwap = .ok (L₁ ++ p :: L₂) → parseRat p.pos = none →
      (GetPositions ex st).1 = .ok (buildPositions (L₁ ++ L₂))) ∧
    (∀ (ex : Exchange) (st : St) (a : AccountData) (rest : List AccountData),
      ex.getAccount strUSDT = .ok (a :: rest) → parseRat a.upl = none →
      ∃ b st₁, GetBalance ex st = (.ok b, st₁) ∧ b.totalUnrealizedProfit = 0 ∧
        (parseRat a.totalEq = none → b.totalWalletBalance = 0)) := by
  have hz : ∀ s, parseRat s = none → parseFloat s = 0 := by
    intro s h
    rw [parseFloat, h]
    rfl
  have hskip : ∀ (L₁ L₂ : List RawPos) (p : RawPos), parseRat p.pos = none →
      buildPositions (L₁ ++ p :: L₂) = buildPositions (L₁ ++ L₂) := by
    intro L₁ L₂ p hp
    induction L₁ with
    | nil =>
      simp only [List.nil_append, buildPositions, if_pos (hz p.pos hp)]
    | cons q rest ih =>
      simp only [List.cons_append, buildPositions, List.append_eq, ih]
  refine ⟨hz, hskip, fun ex st L₁ L₂ p h hp => ?_, fun ex st a rest h hupl => ?_⟩
  · simp [GetPositions, h, hskip L₁ L₂ p hp]
  · have hb : GetBalance ex st =
        (.ok { totalWalletBalance := parseFloat a.totalEq - parseFloat a.upl
               availableBalance := parseFloat a.availEq
               totalUnrealizedProfit := parseFloat a.upl },
          st.log (Act.getAccount strUSDT)) := by
      simp [GetBalance, h]
    refine ⟨_, _, hb, hz a.upl hupl, fun hte => ?_⟩
    simp [hz a.upl hupl, hz a.totalEq hte]

/-- Witness for C10: the malformed-amount position is omitted and the
malformed balance fields come back as 0. -/
theorem C10_witness :
    (GetPositions exC10 st0).1 = .ok (buildPositions ([] ++ [])) ∧
    (∃ b st₁, GetBalance exC10 st0 = (.ok b, st₁) ∧ b.totalUnrealizedProfit = 0 ∧
      (parseRat accBad.totalEq = none → b.totalWalletBalance = 0)) :=
  ⟨C10_malformed_numbers_become_zero.2.2.1 exC10 st0 [] [] rawBad rfl (by decide),
   C10_malformed_numbers_become_zero.2.2.2 exC10 st0 accBad [] rfl (by decide)⟩

lemma findSide_eq_none (L : List RawPos) (side : Str) (h : ∀ p ∈ L, ¬ p.posSide = side) :
    findSide L side = none := by
  induction L with
  | nil => rfl
  | cons p rest ih =>
    have hp := h p (by simp)
    simp [findSide, hp, ih (fun q hq => h q (by simp [hq]))]

/-- C3: `CloseLong(symbol, 0)` resolves the quantity from the long position:
with no long position it returns the not-found error and places no order;
with a long position `p` it reduces to a sell market order with posSide
"long" and quantity `parseFloat p.pos`. `CloseShort` mirrors this with the
short position and a buy order. -/
theorem C3_close_zero_resolves_position (ex : Exchange) (st : St) (symbol : Str) :
    (∀ L, ex.getPositions (posReqInst (okxSymbol symbol)) = .ok L →
      ((∀ p ∈ L, ¬ p.posSide = strLong) →
        (CloseLong ex st symbol 0).1 = .error (errNoLong symbol) ∧
        (CloseLong ex st symbol 0).2.trace =
          st.trace ++ [Act.getPositions (posReqInst (okxSymbol symbol))] ∧
        (∀ r, Act.placeOrder r ∈ (CloseLong ex st symbol 0).2.trace →
          Act.placeOrder r ∈ st.trace)) ∧
      (∀ p, findSide L strLong = some p →
        CloseLong ex st symbol 0 =
          placeOrder ex (st.log (Act.getPositions (posReqInst (okxSymbol symbol)))) symbol
            strSell strMarket strLong (parseFloat p.pos))) ∧
    (∀ L, ex.getPositions (posReqInst (okxSymbol symbol)) = .ok L →
      ((∀ p ∈ L, ¬ p.posSide = strShort) →
        (CloseShort ex st symbol 0).1 = .error (errNoShort symbol) ∧
        (CloseShort ex st symbol 0).2.trace =
          st.trace ++ [Act.getPositions (posReqInst (okxSymbol symbol))] ∧
        (∀ r, Act.placeOrder r ∈ (CloseShort ex st symbol 0).2.trace →
          Act.placeOrder r ∈ st.trace)) ∧
      (∀ p, findSide L strShort = some p →
        CloseShort ex st symbol 0 =
          placeOrder ex (st.log (Act.getPositions (posReqInst (okxSymbol symbol)))) symbol
            strBuy strMarket strShort (parseFloat p.pos))) := by
  constructor
  · intro L hL
    have hspec : getSpecificPosition ex st symbol strLong =
        (.ok (findSide L strLong), st.log (Act.getPositions (posReqInst (okxSymbol symbol)))) := by
      simp [getSpecificPosition, hL]
    constructor
    · intro hnone
      have h0 : CloseLong ex st symbol 0 =
          (.error (errNoLong symbol),
            st.log (Act.getPositions (posReqInst (okxSymbol symbol)))) := by
        simp [CloseLong, hspec, findSide_eq_none L strLong hnone]
      refine ⟨by rw [h0], by rw [h0]; rfl, fun r hr => ?_⟩
      rw [h0] at hr
      rcases List.mem_append.mp hr with h | h
      · exact h
      · simp at h
    · intro p hp
      simp [CloseLong, hspec, hp]
  · intro L hL
    have hspec : getSpecificPosition ex st symbol strShort =
        (.ok (findSide L strShort), st.log (Act.getPositions (posReqInst (okxSymbol symbol)))) := by
      simp [getSpecificPosition, hL]
    constructor
    · intro hnone
      have h0 : CloseShort ex st symbol 0 =
          (.error (errNoShort symbol),
            st.log (Act.getPositions (posReqInst (okxSymbol symbol)))) := by
        simp [CloseShort, hspec, findSide_eq_none L strShort hnone]
      refine ⟨by rw [h0], by rw [h0]; rfl, fun r hr => ?_⟩
      rw [h0] at hr
      rcases List.mem_append.mp hr with h | h
      · exact h
      · simp at h
    · intro p hp
      simp [CloseShort, hspec, hp]

/-- Witness for C3: with a long position of size 2 open, `CloseLong` with
quantity 0 reduces to a sell market order for quantity 2. -/
theorem C3_witness :
    CloseLong exA st0 strBTCUSDT 0 =
      placeOrder exA (st0.log (Act.getPositions (posReqInst (okxSymbol strBTCUSDT)))) strBTCUSDT
        strSell strMarket strLong (parseFloat rawLong2.pos) :=
  ((C3_close_zero_resolves_position exA st0 strBTCUSDT).1 [rawLong2] rfl).2 rawLong2
    (by decide)

/-- The cancel loop appends exactly one cancel call per listed algo order and
never touches anything else. -/
lemma cancelEach_trace (ex : Exchange) (instID : Str) (L : List AlgoEntry) :
    ∀ st : St, cancelEach ex st instID L =
      { st with trace := (st.trace ++
          L.map fun a => Act.cancelAlgo { instID := instID, algoID := a.algoID }) } := by
  induction L with
  | nil => intro st; simp [cancelEach]
  | cons a rest ih =>
    intro st
    simp [cancelEach, ih, St.log, List.append_assoc]

/-- C6: `CancelAllOrders` always returns success; when the stop-loss listing
fails and the take-profit listing succeeds, the take-profit pass is still
attempted (its listing call and one cancel per returned order appear in
the trace); and the outcomes of individual cancel calls have no influence
at all on the result. -/
theorem C6_cancelAll_best_effort (ex : Exchange) (st : St) (symbol : Str) :
    (CancelAllOrders ex st symbol).1 = .ok () ∧
    (∀ e L, ex.getAlgoOrderList (algoListReq (okxSymbol symbol) strStop) = .error e →
      ex.getAlgoOrderList (algoListReq (okxSymbol symbol) strTp) = .ok L →
      (CancelAllOrders ex st symbol).2.trace =
        st.trace ++ [Act.getAlgoList (algoListReq (okxSymbol symbol) strStop),
                     Act.getAlgoList (algoListReq (okxSymbol symbol) strTp)] ++
          L.map (fun a => Act.cancelAlgo { instID := okxSymbol symbol, algoID := a.algoID })) ∧
    (∀ f, CancelAllOrders { ex with cancelAlgoOrder := f } st symbol =
      CancelAllOrders ex st symbol) := by
  refine ⟨rfl, fun e L he hL => ?_, fun f => ?_⟩
  · simp [CancelAllOrders, he, hL, cancelEach_trace, St.log, List.append_assoc]
  · cases h1 : ex.getAlgoOrderList (algoListReq (okxSymbol symbol) strStop) <;>
      cases h2 : ex.getAlgoOrderList (algoListReq (okxSymbol symbol) strTp) <;>
      simp [CancelAllOrders, h1, h2, cancelEach_trace]

/-- Witness for C6: on the sample exchange (stop listing broken, one
take-profit order listed) cancellation succeeds and the take-profit pass
runs. -/
theorem C6_witness :
    (CancelAllOrders exA st0 strBTCUSDT).1 = .ok () ∧
    (CancelAllOrders exA st0 strBTCUSDT).2.trace =
      st0.trace ++ [Act.getAlgoList (algoListReq (okxSymbol strBTCUSDT) strStop),
                    Act.getAlgoList (algoListReq (okxSymbol strBTCUSDT) strTp)] ++
        [{ algoID := "a1".data : AlgoEntry }].map
          (fun a => Act.cancelAlgo { instID := okxSymbol strBTCUSDT, algoID := a.algoID }) :=
  ⟨(C6_cancelAll_best_effort exA st0 strBTCUSDT).1,
   (C6_cancelAll_best_effort exA st0 strBTCUSDT).2.1 "boom".data [{ algoID := "a1".data }]
     (by decide) (by decide)⟩

/-- A precision lookup only ever adds `getInstruments` calls to the trace. -/
lemma getLotSzPrecision_trace (ex : Exchange) (st : St) (instID : Str) :
    ∃ extra, (getLotSzPrecision ex st instID).2.trace = st.trace ++ extra ∧
      ∀ a ∈ extra, ∃ i, a = Act.getInstruments i := by
  cases hc : assocFind st.cache (instID ++ keyLotSz) with
  | some v => exact ⟨[], by simp [getLotSzPrecision, hc], by simp⟩
  | none =>
    cases hi : getInstrumentResp ex instID with
    | error e =>
      refine ⟨[Act.getInstruments instID],
        by simp [getLotSzPrecision, hc, getInstrument, hi, St.log], ?_⟩
      intro a ha
      exact ⟨instID, by simpa using ha⟩
    | ok inst =>
      refine ⟨[Act.getInstruments instID],
        by simp [getLotSzPrecision, hc, getInstrument, hi, St.log], ?_⟩
      intro a ha
      exact ⟨instID, by simpa using ha⟩

lemma getTickSzPrecision_trace (ex : Exchange) (st : St) (instID : Str) :
    ∃ extra, (getTickSzPrecision ex st instID).2.trace = st.trace ++ extra ∧
      ∀ a ∈ extra, ∃ i, a = Act.getInstruments i := by
  cases hc : assocFind st.cache (instID ++ keyTickSz) with
  | some v => exact ⟨[], by simp [getTickSzPrecision, hc], by simp⟩
  | none =>
    cases hi : getInstrumentResp ex instID with
    | error e =>
      refine ⟨[Act.getInstruments instID],
        by simp [getTickSzPrecision, hc, getInstrument, hi, St.log], ?_⟩
      intro a ha
      exact ⟨instID, by simpa using ha⟩
    | ok inst =>
      refine ⟨[Act.getInstruments instID],
        by simp [getTickSzPrecision, hc, getInstrument, hi, St.log], ?_⟩
      intro a ha
      exact ⟨instID, by simpa using ha⟩

lemma FormatQuantity_trace (ex : Exchange) (st : St) (symbol : Str) (q : ℚ) :
    ∃ extra, (FormatQuantity ex st symbol q).2.trace = st.trace ++ extra ∧
      ∀ a ∈ extra, ∃ i, a = Act.getInstruments i := by
  obtain ⟨extra, he, hall⟩ := getLotSzPrecision_trace ex st (okxSymbol symbol)
  rcases hg : getLotSzPrecision ex st (okxSymbol symbol) with ⟨r, st₁⟩
  rw [hg] at he
  cases r with
  | error e => exact ⟨extra, by rw [FormatQuantity, hg]; exact he, hall⟩
  | ok p => exact ⟨extra, by rw [FormatQuantity, hg]; exact he, hall⟩

lemma FormatPrice_trace (ex : Exchange) (st : St) (symbol : Str) (v : ℚ) :
    ∃ extra, (FormatPrice ex st symbol v).2.trace = st.trace ++ extra ∧
      ∀ a ∈ extra, ∃ i, a = Act.getInstruments i := by
  obtain ⟨extra, he, hall⟩ := getTickSzPrecision_trace ex st (okxSymbol symbol)
  rcases hg : getTickSzPrecision ex st (okxSymbol symbol) with ⟨r, st₁⟩
  rw [hg] at he
  cases r with
  | error e => exact ⟨extra, by rw [FormatPrice, hg]; exact he, hall⟩
  | ok p => exact ⟨extra, by rw [FormatPrice, hg]; exact he, hall⟩

/-- `placeAlgoOrder` appends exactly one `placeAlgo` call, for the request
`algoReqOf` builds. -/
lemma placeAlgoOrder_trace (ex : Exchange) (st : St) (symbol posSide ordType trig sz : Str) :
    (placeAlgoOrder ex st symbol posSide ordType trig sz).2.trace =
      st.trace ++ [Act.placeAlgo (algoReqOf symbol posSide ordType trig sz)] := by
  unfold placeAlgoOrder
  cases h : ex.placeAlgoOrder (algoReqOf symbol posSide ordType trig sz) with
  | error e => simp [h, St.log]
  | ok data =>
    cases data with
    | nil => simp [h, St.log]
    | cons d rest => by_cases hc : d.sCode = str0 <;> simp [h, hc, St.log]

/-- The submitted contingent order's trade side is "buy" exactly when the
protected position side is "short", else "sell". -/
lemma algoReqOf_side (symbol posSide ordType trig sz : Str) :
    (algoReqOf symbol posSide ordType trig sz).side =
      if posSide = strShort then strBuy else strSell := by
  unfold algoReqOf
  by_cases h1 : ordType = strStop <;> by_cases h2 : ordType = strTp <;>
    simp [h1, h2, show ¬ strTp = strStop from by decide]

lemma SetStopLoss_trace (ex : Exchange) (st : St) (symbol positionSide : Str) (q prc : ℚ) :
    ∃ extra sz trig, (SetStopLoss ex st symbol positionSide q prc).2.trace =
      st.trace ++ extra ++
        [Act.placeAlgo (algoReqOf symbol (toLower positionSide) strStop trig sz)] ∧
      ∀ a ∈ extra, ∃ i, a = Act.getInstruments i := by
  obtain ⟨s, st₁, hfq⟩ := FormatQuantity_isOk ex st (okxSymbol symbol) q
  obtain ⟨e1, he1, hall1⟩ := FormatQuantity_trace ex st (okxSymbol symbol) q
  rw [hfq] at he1
  obtain ⟨s2, st₂, hfp⟩ := FormatPrice_isOk ex st₁ (okxSymbol symbol) prc
  obtain ⟨e2, he2, hall2⟩ := FormatPrice_trace ex st₁ (okxSymbol symbol) prc
  rw [hfp] at he2
  refine ⟨e1 ++ e2, s, s2, ?_, ?_⟩
  · rw [SetStopLoss, hfq]
    dsimp only
    rw [hfp]
    dsimp only
    rw [placeAlgoOrder_trace, he2, he1]
    simp [List.append_assoc]
  · intro a ha
    rcases List.mem_append.mp ha with h | h
    · exact hall1 a h
    · exact hall2 a h

lemma SetTakeProfit_trace (ex : Exchange) (st : St) (symbol positionSide : Str) (q prc : ℚ) :
    ∃ extra sz trig, (SetTakeProfit ex st symbol positionSide q prc).2.trace =
      st.trace ++ extra ++
        [Act.placeAlgo (algoReqOf symbol (toLower positionSide) strTp trig sz)] ∧
      ∀ a ∈ extra, ∃ i, a = Act.getInstruments i := by
  obtain ⟨s, st₁, hfq⟩ := FormatQuantity_isOk ex st (okxSymbol symbol) q
  obtain ⟨e1, he1, hall1⟩ := FormatQuantity_trace ex st (okxSymbol symbol) q
  rw [hfq] at he1
  obtain ⟨s2, st₂, hfp⟩ := FormatPrice_isOk ex st₁ (okxSymbol symbol) prc
  obtain ⟨e2, he2, hall2⟩ := FormatPrice_trace ex st₁ (okxSymbol symbol) prc
  rw [hfp] at he2
  refine ⟨e1 ++ e2, s, s2, ?_, ?_⟩
  · rw [SetTakeProfit, hfq]
    dsimp only
    rw [hfp]
    dsimp only
    rw [placeAlgoOrder_trace, he2, he1]
    simp [List.append_assoc]
  · intro a ha
    rcases List.mem_append.mp ha with h | h
    · exact hall1 a h
    · exact hall2 a h

/-- C9: every conditional order that `SetStopLoss` or `SetTakeProfit` submits
carries trade side "sell" when the protected position side is long and
"buy" when it is short. -/
theorem C9_contingent_side (ex : Exchange) (st : St) (symbol : Str) (q prc : ℚ) :
    (∀ r, Act.placeAlgo r ∈ (SetStopLoss ex st symbol strLong q prc).2.trace →
      Act.placeAlgo r ∈ st.trace ∨ r.side = strSell) ∧
    (∀ r, Act.placeAlgo r ∈ (SetStopLoss ex st symbol strShort q prc).2.trace →
      Act.placeAlgo r ∈ st.trace ∨ r.side = strBuy) ∧
    (∀ r, Act.placeAlgo r ∈ (SetTakeProfit ex st symbol strLong q prc).2.trace →
      Act.placeAlgo r ∈ st.trace ∨ r.side = strSell) ∧
    (∀ r, Act.placeAlgo r ∈ (SetTakeProfit ex st symbol strShort q prc).2.trace →
      Act.placeAlgo r ∈ st.trace ∨ r.side = strBuy) := by
  refine ⟨fun r hr => ?_, fun r hr => ?_, fun r hr => ?_, fun r hr => ?_⟩
  · obtain ⟨extra, sz, trig, htr, hall⟩ := SetStopLoss_trace ex st symbol strLong q prc
    rw [htr] at hr
    rcases List.mem_append.mp hr with h | h
    · rcases List.mem_append.mp h with h' | h'
      · exact Or.inl h'
      · obtain ⟨i, hi⟩ := hall _ h'
        exact absurd hi (by simp)
    · right
      have hreq : r = algoReqOf symbol (toLower strLong) strStop trig sz := by simpa using h
      rw [hreq, algoReqOf_side, if_neg (by decide : ¬ toLower strLong = strShort)]
  · obtain ⟨extra, sz, trig, htr, hall⟩ := SetStopLoss_trace ex st symbol strShort q prc
    rw [htr] at hr
    rcases List.mem_append.mp hr with h | h
    · rcases List.mem_append.mp h with h' | h'
      · exact Or.inl h'
      · obtain ⟨i, hi⟩ := hall _ h'
        exact absurd hi (by simp)
    · right
      have hreq : r = algoReqOf symbol (toLower strShort) strStop trig sz := by simpa using h
      rw [hreq, algoReqOf_side, if_pos (by decide : toLower strShort = strShort)]
  · obtain ⟨extra, sz, trig, htr, hall⟩ := SetTakeProfit_trace ex st symbol strLong q prc
    rw [htr] at hr
    rcases List.mem_append.mp hr with h | h
    · rcases List.mem_append.mp h with h' | h'
      · exact Or.inl h'
      · obtain ⟨i, hi⟩ := hall _ h'
        exact absurd hi (by simp)
    · right
      have hreq : r = algoReqOf symbol (toLower strLong) strTp trig sz := by simpa using h
      rw [hreq, algoReqOf_side, if_neg (by decide : ¬ toLower strLong = strShort)]
  · obtain ⟨extra, sz, trig, htr, hall⟩ := SetTakeProfit_trace ex st symbol strShort q prc
    rw [htr] at hr
    rcases List.mem_append.mp hr with h | h
    · rcases List.mem_append.mp h with h' | h'
      · exact Or.inl h'
      · obtain ⟨i, hi⟩ := hall _ h'
        exact absurd hi (by simp)
    · right
      have hreq : r = algoReqOf symbol (toLower strShort) strTp trig sz := by simpa using h
      rw [hreq, algoReqOf_side, if_pos (by decide : toLower strShort = strShort)]

/-- Witness for C9: the stop order submitted for a long position on the
sample exchange has trade side "sell". -/
theorem C9_witness :
    Act.placeAlgo (algoReqOf strBTCUSDT strLong strStop (formatFixed 2 2) (formatFixed 3 1))
        ∈ st0.trace ∨
      (algoReqOf strBTCUSDT strLong strStop (formatFixed 2 2) (formatFixed 3 1)).side =
        strSell :=
  (C9_contingent_side exA st0 strBTCUSDT 1 2).1
    (algoReqOf strBTCUSDT strLong strStop (formatFixed 2 2) (formatFixed 3 1))
    (by with_unfolding_all decide)
